import Mathlib

/-!
# Verification of the Antfetch system-fetch utility

A shallow embedding of `src/main.rs`.  File reads and environment-variable
lookups are modelled by `Option String` parameters (`none` = the read or the
lookup fails).  Rust `f64` values are modelled by `RustF64`: an exact rational
for finite values plus the special values `inf`, `neginf` and `nan`
(an idealisation: real `f64` arithmetic rounds to 53-bit precision, which is
exact for every computation the theorems below evaluate).  A Rust operation
that can panic (indexing a string off a char boundary, `u64` subtraction
overflow under the default debug profile) is modelled by an `Option` result,
`none` standing for the panic.
-/

-- The Batteries rational-number operations are `@[irreducible]`, which stops
-- `decide` from evaluating the concrete witnesses below; restore the ordinary
-- reducibility of these computable definitions for this file.
set_option allowUnsafeReducibility true
attribute [local semireducible] Rat.add Rat.sub Rat.mul Rat.inv

namespace Antfetch

/-- The characters with the Unicode `White_Space` property, as used by Rust's
`char::is_whitespace`, `str::trim` and `str::split_whitespace`. -/
def rustWhitespace (c : Char) : Bool :=
  c.toNat = 0x9 ∨ c.toNat = 0xA ∨ c.toNat = 0xB ∨ c.toNat = 0xC ∨ c.toNat = 0xD ∨
  c.toNat = 0x20 ∨ c.toNat = 0x85 ∨ c.toNat = 0xA0 ∨ c.toNat = 0x1680 ∨
  (0x2000 ≤ c.toNat ∧ c.toNat ≤ 0x200A) ∨
  c.toNat = 0x2028 ∨ c.toNat = 0x2029 ∨ c.toNat = 0x202F ∨ c.toNat = 0x205F ∨
  c.toNat = 0x3000

/-- Split a character list at every occurrence of `sep`, keeping empty pieces:
the semantics of Rust's `str::split(sep)` (and of `str::split_once` when only
the first two pieces are looked at). -/
def splitOnChar (sep : Char) : List Char → List (List Char)
  | [] => [[]]
  | c :: cs =>
    if c = sep then [] :: splitOnChar sep cs
    else
      match splitOnChar sep cs with
      | t :: ts => (c :: t) :: ts
      | [] => [[c]]

/-- Remove one trailing carriage return, as Rust's `str::lines` does to each
line. -/
def stripCR (l : List Char) : List Char :=
  match l.reverse with
  | c :: rest => if c = '\r' then rest.reverse else l
  | [] => l

/-- Rust's `str::lines`: split at `'\n'`, drop the final empty piece produced
by a trailing newline, and strip one `'\r'` from the end of every line. -/
def rustLinesL (l : List Char) : List (List Char) :=
  let parts := splitOnChar '\n' l
  let parts := if parts.getLast? = some [] then parts.dropLast else parts
  parts.map stripCR

def rustLines (s : String) : List (List Char) :=
  rustLinesL s.toList

/-- Drop the longest suffix satisfying `p`. -/
def dropEndWhile (p : Char → Bool) (l : List Char) : List Char :=
  (l.reverse.dropWhile p).reverse

/-- Rust's `str::trim`: remove leading and trailing Unicode whitespace. -/
def rustTrimL (l : List Char) : List Char :=
  dropEndWhile rustWhitespace (l.dropWhile rustWhitespace)

def rustTrim (s : String) : String :=
  (rustTrimL s.toList).asString

/-- `content.split_whitespace().next()`: the first maximal run of
non-whitespace characters, if any. -/
def firstToken (s : String) : Option (List Char) :=
  match s.toList.dropWhile rustWhitespace with
  | [] => none
  | c :: cs => some (c :: cs.takeWhile (fun d => ¬ rustWhitespace d))

/-- The UTF-8 byte length of a character list, as Rust's `str::len`. -/
def utf8Len (l : List Char) : Nat :=
  (l.map Char.utf8Size).sum

/-- `&s[..n]` on a Rust string: the characters making up the first `n` UTF-8
bytes.  `none` models the panic raised when `n` is not a char boundary (or is
past the end of the string). -/
def takeBytes : List Char → Nat → Option (List Char)
  | _, 0 => some []
  | [], _ + 1 => none
  | c :: cs, n + 1 =>
    if c.utf8Size ≤ n + 1 then (takeBytes cs (n + 1 - c.utf8Size)).map (c :: ·)
    else none

/-- Does the line start with the given literal (Rust `str::starts_with`)? -/
def startsWithL (l : List Char) (p : String) : Bool :=
  p.toList.isPrefixOf l

/-- A Rust `f64` value: an exact rational for the finite values (idealising
the 53-bit mantissa, which is exact on every input evaluated below), plus the
three special values. -/
inductive RustF64 where
  | finite (q : ℚ)
  | inf
  | neginf
  | nan
deriving DecidableEq

/-- Truncation toward zero of a rational, as Rust's `f64::trunc` and the
integral part taken by an `as` cast. -/
def truncQ (q : ℚ) : ℤ :=
  if q < 0 then -⌊-q⌋ else ⌊q⌋

/-- Rust's saturating `as u32` cast on an `f64`: `nan` to 0, truncation toward
zero clamped into `[0, 2^32 - 1]`. -/
def f64AsU32 (v : RustF64) : Nat :=
  match v with
  | .nan => 0
  | .inf => 2 ^ 32 - 1
  | .neginf => 0
  | .finite q =>
    let t := truncQ q
    if t < 0 then 0 else if t > 2 ^ 32 - 1 then 2 ^ 32 - 1 else t.toNat

/-- Division of an `f64` by a positive finite constant. -/
def f64Div (v : RustF64) (d : ℚ) : RustF64 :=
  match v with
  | .finite q => .finite (q / d)
  | .inf => .inf
  | .neginf => .neginf
  | .nan => .nan

/-- Rust's `%` on `f64` with a positive finite constant divisor: the remainder
`a - d * trunc(a / d)`, carrying the dividend's sign; `nan` on the infinite
dividends. -/
def f64Rem (v : RustF64) (d : ℚ) : RustF64 :=
  match v with
  | .finite q => .finite (q - d * (truncQ (q / d) : ℚ))
  | _ => .nan

/-- Digit characters to a natural number (the digits are already checked). -/
def digitsToNat (l : List Char) : Nat :=
  l.foldl (fun acc c => 10 * acc + (c.toNat - '0'.toNat)) 0

/-- Case-insensitive match against a lowercase keyword. -/
def matchKeywordCI (l : List Char) (kw : String) : Bool :=
  l.map Char.toLower = kw.toList

/-- The unsigned part of Rust's `f64::from_str` grammar:
`Digits '.'? Digits? Exp? | '.' Digits Exp?` with
`Exp ::= ('e' | 'E') Sign? Digits`, or the keywords `inf`, `infinity`, `nan`
(case-insensitive).  Exponents are applied exactly over `ℚ` (idealising
overflow to infinity and rounding). -/
def parseUnsignedF64 (l : List Char) : Option ℚ :=
  let intDigits := l.takeWhile Char.isDigit
  let rest := l.dropWhile Char.isDigit
  let (fracDigits, rest2) :=
    match rest with
    | '.' :: r => (r.takeWhile Char.isDigit, r.dropWhile Char.isDigit)
    | _ => ([], rest)
  let noDot := match rest with
    | '.' :: _ => false
    | _ => true
  if intDigits = [] ∧ (noDot ∨ fracDigits = []) then none
  else
    let mant : ℚ :=
      (digitsToNat intDigits : ℚ) +
        (digitsToNat fracDigits : ℚ) / ((10 : ℚ) ^ fracDigits.length)
    match rest2 with
    | [] => some mant
    | e :: r =>
      if e = 'e' ∨ e = 'E' then
        let (eneg, r2) :=
          match r with
          | '+' :: r2 => (false, r2)
          | '-' :: r2 => (true, r2)
          | _ => (false, r)
        if r2 ≠ [] ∧ r2.all Char.isDigit then
          let ex : ℤ := if eneg then -(digitsToNat r2 : ℤ) else (digitsToNat r2 : ℤ)
          some (mant * (10 : ℚ) ^ ex)
        else none
      else none

/-- Rust's `str::parse::<f64>()`. -/
def rustParseF64 (s : String) : Option RustF64 :=
  let (neg, body) :=
    match s.toList with
    | '+' :: r => (false, r)
    | '-' :: r => (true, r)
    | l => (false, l)
  if matchKeywordCI body "inf" ∨ matchKeywordCI body "infinity" then
    some (if neg then .neginf else .inf)
  else if matchKeywordCI body "nan" then
    some .nan
  else
    (parseUnsignedF64 body).map fun q => .finite (if neg then -q else q)

/-- Round a nonnegative rational to the nearest integer, ties to even: the
rounding Rust's float formatting applies at the requested precision. -/
def roundHalfEven (t : ℚ) : ℕ :=
  let n := ⌊t⌋.toNat
  let r := t - (n : ℚ)
  if r > 1 / 2 then n + 1
  else if r < 1 / 2 then n
  else if n % 2 = 0 then n else n + 1

/-- Left-pad a numeral with zeros to `p` digits. -/
def padZeros (p : Nat) (s : String) : String :=
  (List.replicate (p - s.length) '0').asString ++ s

/-- Rust's `{:.p}` formatting of a finite `f64` (p > 0): sign, integer part,
`'.'`, and exactly `p` fraction digits, the exact value rounded half-to-even
at the `p`-th decimal. -/
def fmtFixed (p : Nat) (q : ℚ) : String :=
  let sign := if q < 0 then "-" else ""
  let n := roundHalfEven (|q| * (10 : ℚ) ^ p)
  sign ++ toString (n / 10 ^ p) ++ "." ++ padZeros p (toString (n % 10 ^ p))

/-- Rust's `{:.p}` formatting of an `f64`, including the special values. -/
def fmtF64 (p : Nat) (v : RustF64) : String :=
  match v with
  | .finite q => fmtFixed p q
  | .inf => "inf"
  | .neginf => "-inf"
  | .nan => "NaN"

/-!
## The FactCollector functions of `src/main.rs`

Each collector takes the content of its data source as `Option String`
(`none` = the file read or environment lookup failed) and produces the display
string; `get_cpu` and `get_memory` produce `Option String`, `none` standing
for a panic of the Rust code.
-/

/-- `get_user`: the `USER` environment variable, or `"unknown"`. -/
def get_user (v : Option String) : String :=
  v.getD "unknown"

/-- `get_shell`: the `SHELL` environment variable, or `"unknown"`. -/
def get_shell (v : Option String) : String :=
  v.getD "unknown"

/-- `get_hostname`: the hostname file trimmed, `"unknown"` when unreadable. -/
def get_hostname (f : Option String) : String :=
  rustTrim (f.getD "unknown")

/-- `get_kernel`: the kernel release file trimmed, `"unknown"` when
unreadable. -/
def get_kernel (f : Option String) : String :=
  rustTrim (f.getD "unknown")

/-- Strip the literal `p` from the front of `l` repeatedly, as Rust's
`trim_start_matches` (fuelled by the length of the list). -/
def stripRepeat (p : List Char) : Nat → List Char → List Char
  | 0, l => l
  | fuel + 1, l =>
    if p.isPrefixOf l ∧ p ≠ [] then stripRepeat p fuel (l.drop p.length) else l

/-- `line.trim_start_matches("PRETTY_NAME=")`. -/
def stripPrettyKey (l : List Char) : List Char :=
  stripRepeat "PRETTY_NAME=".toList l.length l

/-- `str::trim_matches(c)`: remove every leading and trailing occurrence. -/
def trimMatchesChar (c : Char) (l : List Char) : List Char :=
  dropEndWhile (· = c) (l.dropWhile (· = c))

/-- The first line starting with `PRETTY_NAME=`, if any. -/
def findPrettyLine : List (List Char) → Option (List Char)
  | [] => none
  | l :: ls =>
    if startsWithL l "PRETTY_NAME=" then some l else findPrettyLine ls

/-- The compile-time `std::env::consts::OS` for the distributed target. -/
def constsOS : String := "linux"

/-- The compile-time `std::env::consts::ARCH` for the distributed target. -/
def constsARCH : String := "x86_64"

/-- `get_os_info`: the `PRETTY_NAME` value of the OS release file (key
stripped repeatedly, surrounding quotes trimmed), else the compiled
platform string `"{OS} {ARCH}"`. -/
def get_os_info (f : Option String) : String :=
  match f with
  | some content =>
    match findPrettyLine (rustLines content) with
    | some l => (trimMatchesChar '"' (stripPrettyKey l)).asString
    | none => constsOS ++ " " ++ constsARCH
  | none => constsOS ++ " " ++ constsARCH

/-- `get_uptime`: parse the first whitespace-separated token of the uptime
file as `f64` seconds, print `"{h}h {m}m"` through saturating `as u32` casts;
`"unknown"` when the file is unreadable, empty, or the token fails to
parse. -/
def get_uptime (src : Option String) : String :=
  match src with
  | none => "unknown"
  | some content =>
    match firstToken content with
    | none => "unknown"
    | some tok =>
      match rustParseF64 tok.asString with
      | none => "unknown"
      | some v =>
        let hours := f64AsU32 (f64Div v 3600)
        let minutes := f64AsU32 (f64Div (f64Rem v 3600) 60)
        toString hours ++ "h " ++ toString minutes ++ "m"

/-- The loop body of `get_cpu` and `get_cpu_speed`: the piece between the
first and the second colon (`line.split(':').nth(1)`) of the first line
starting with `key` that contains a colon; a line starting with `key` but
containing no colon is skipped and the scan continues. -/
def findLabelledValue (key : String) : List (List Char) → Option (List Char)
  | [] => none
  | l :: ls =>
    if startsWithL l key then
      match (splitOnChar ':' l).get? 1 with
      | some v => some v
      | none => findLabelledValue key ls
    else findLabelledValue key ls

/-- The tail of `get_cpu`: trim the extracted name; when its **byte** length
exceeds 30, slice the first 27 **bytes** (`&full_name[..27]`, `none` = the
panic when byte 27 is not a char boundary) and append `"..."`. -/
def processCpuName (name : List Char) : Option String :=
  let full := rustTrimL name
  if utf8Len full > 30 then
    (takeBytes full 27).map (fun pre => pre.asString ++ "...")
  else some full.asString

/-- `get_cpu`: the model name from the CPU info source, truncated;
`some "unknown"` when the source is unreadable or has no usable
`model name` line; `none` models the slicing panic. -/
def get_cpu (src : Option String) : Option String :=
  match src with
  | some content =>
    match findLabelledValue "model name" (rustLines content) with
    | some name => processCpuName name
    | none => some "unknown"
  | none => some "unknown"

/-- `get_cpu_cores`: the count of lines starting with `"processor"`,
rendered in decimal; `"unknown"` when the source is unreadable. -/
def get_cpu_cores (src : Option String) : String :=
  match src with
  | some content =>
    toString ((rustLines content).countP (fun l => startsWithL l "processor"))
  | none => "unknown"

/-- `get_cpu_speed`: the value of the first `"cpu MHz"` line parsed as `f64`
(0.0 when unparsable), divided by 1000 and shown as `"{:.2}GHz"`;
`"unknown"` when the source is unreadable or has no usable line. -/
def get_cpu_speed (src : Option String) : String :=
  match src with
  | some content =>
    match findLabelledValue "cpu MHz" (rustLines content) with
    | some v =>
      let mhz := (rustParseF64 (rustTrimL v).asString).getD (.finite 0)
      fmtF64 2 (f64Div mhz 1000) ++ "GHz"
    | none => "unknown"
  | none => "unknown"

/-- A `split_once(':')` line of the memory info source: the part before the
first colon (trimmed, the key) and everything after the first colon. -/
def memEntry (l : List Char) : Option (List Char × Nat) :=
  let pre := l.takeWhile (· ≠ ':')
  if pre.length = l.length then none
  else
    let value := l.drop (pre.length + 1)
    some (rustTrimL pre, memValueNum value)
where
  /-- `value.trim().split_whitespace().next().unwrap_or("0")
      .parse::<u64>().unwrap_or(0)`. -/
  memValueNum (value : List Char) : Nat :=
    match (rustTrimL value).dropWhile rustWhitespace with
    | [] => 0
    | c :: cs => (parseU64 (c :: cs.takeWhile (fun d => ¬ rustWhitespace d))).getD 0
  /-- Rust's `u64::from_str`: an optional `+`, then decimal digits, rejecting
      values above `2^64 - 1`. -/
  parseU64 (l : List Char) : Option Nat :=
    let body := match l with
      | '+' :: r => r
      | r => r
    if body ≠ [] ∧ body.all Char.isDigit then
      let n := digitsToNat body
      if n ≤ 2 ^ 64 - 1 then some n else none
    else none

/-- `HashMap` lookup after inserting the entries in order: the last entry
with the given key wins. -/
def memLookup (entries : List (List Char × Nat)) (key : String) : Option Nat :=
  (entries.reverse.find? (fun e => e.1 = key.toList)).map (·.2)

/-- The `mem_info` map built by `get_memory`, as its insertion-ordered entry
list. -/
def memEntriesOf (content : String) : List (List Char × Nat) :=
  (rustLines content).filterMap memEntry

/-- Round a `u64` value to the nearest `f64` (53-bit mantissa, ties to even):
the `total as f64` conversion. -/
def u64ToF64 (n : Nat) : Nat :=
  if n < 2 ^ 53 then n
  else
    let e := Nat.log2 n - 52
    let m := n / 2 ^ e
    let r := n % 2 ^ e
    let half := 2 ^ (e - 1)
    let m' := if r > half then m + 1
      else if r < half then m
      else if m % 2 = 0 then m else m + 1
    m' * 2 ^ e

/-- `n as f64 / 1024.0 / 1024.0`: after the (rounded) integer-to-float
conversion both divisions by 1024 are exact. -/
def memGB (n : Nat) : ℚ :=
  (u64ToF64 n : ℚ) / 2 ^ 20

/-- `get_memory`: parse each `key: value` line into a map, and if `MemTotal`
and `MemAvailable` are both present show `"{used:.1}GB / {total:.1}GB"` with
`used = MemTotal - MemAvailable`; `none` models the panic of the `u64`
subtraction when `MemAvailable > MemTotal` (debug-profile overflow check; a
release build would wrap around, diverging just the same from the
mathematical difference). -/
def get_memory (src : Option String) : Option String :=
  match src with
  | none => some "unknown"
  | some content =>
    match memLookup (memEntriesOf content) "MemTotal",
        memLookup (memEntriesOf content) "MemAvailable" with
    | some total, some available =>
      if available ≤ total then
        some (fmtFixed 1 (memGB (total - available)) ++ "GB / " ++
          fmtFixed 1 (memGB total) ++ "GB")
      else none
    | _, _ => some "unknown"

/-!
## The `SystemInfo` record and its constructor
-/

/-- The `SystemInfo` struct: one display string per fact. -/
structure SystemInfo where
  user : String
  hostname : String
  os : String
  kernel : String
  uptime : String
  shell : String
  cpu : String
  cpu_cores : String
  cpu_speed : String
  memory : String
deriving DecidableEq, Repr

/-- The contents of the data sources and environment variables a run can
observe; `none` = a failing read or an unset variable. -/
structure Env where
  userVar : Option String
  shellVar : Option String
  hostnameFile : Option String
  osReleaseFile : Option String
  kernelFile : Option String
  uptimeFile : Option String
  cpuinfoFile : Option String
  meminfoFile : Option String
deriving DecidableEq, Repr

/-- `SystemInfo::new`: every collector invoked once; `none` when `get_cpu`
or `get_memory` panics. -/
def SystemInfo.new (env : Env) : Option SystemInfo :=
  match get_cpu env.cpuinfoFile, get_memory env.meminfoFile with
  | some cpu, some memory =>
    some { user := get_user env.userVar
           hostname := get_hostname env.hostnameFile
           os := get_os_info env.osReleaseFile
           kernel := get_kernel env.kernelFile
           uptime := get_uptime env.uptimeFile
           shell := get_shell env.shellVar
           cpu := cpu
           cpu_cores := get_cpu_cores env.cpuinfoFile
           cpu_speed := get_cpu_speed env.cpuinfoFile
           memory := memory }
  | _, _ => none

/-!
## The Renderer (`get_logo`, `get_color_code` and `main`)
-/

/-- `get_logo`: the fixed ASCII-art emblem, twelve literal lines. -/
def logo : List String :=
  [ "           |     |",
    "            \\   /",
    "             \\_/",
    "        __   /^\\   __",
    "       '  `. \\_/ ,'  `",
    "            \\/ \\/",
    "       _,--./| |\\.--._",
    "    _,'   _.-\\_/-._  `._",
    "         |   / \\   |",
    "         |  /   \\  |",
    "        /   |   |   \\",
    "      -'    \\___/    `-" ]

/-- `get_color_code`: the fixed cyan ANSI escape. -/
def colorCode : String := "\x1B[36m"

/-- The ANSI reset escape bound in `main`. -/
def resetCode : String := "\x1B[0m"

/-- A run of `n` spaces (what `{:width$}` of `""` pads to). -/
def spaces (n : Nat) : String :=
  (List.replicate n ' ').asString

/-- The colorized `user@host` string composed by `main`. -/
def userHost (info : SystemInfo) : String :=
  colorCode ++ info.user ++ "@" ++ info.hostname ++ resetCode

/-- Rust's `{:>w$}` formatting: right-align by **pre**-pending spaces up to
`w` characters; a string at least `w` characters long is unchanged. -/
def rustPadRightAlign (w : Nat) (s : String) : String :=
  if s.length < w then spaces (w - s.length) ++ s else s

/-- `let text_start_position = 30`. -/
def textStartPosition : Nat := 30

/-- `let total_width = text_start_position + 30`. -/
def totalWidth : Nat := textStartPosition + 30

/-- The header printed before the two-column block:
`println!("{:>width$}", user_host, width = total_width)`. -/
def headerLine (info : SystemInfo) : String :=
  rustPadRightAlign totalWidth (userHost info)

/-- The ordered `labels` list of `main`. -/
def labelsOf (info : SystemInfo) : List (String × String) :=
  [ ("OS", info.os),
    ("Host", info.hostname),
    ("Kernel", info.kernel),
    ("Uptime", info.uptime),
    ("Shell", info.shell),
    ("CPU", info.cpu ++ " (" ++ info.cpu_cores ++ ") @ " ++ info.cpu_speed),
    ("Memory", info.memory) ]

/-- The info text of one labeled row:
`format!("{}{}:{} {}", color, label, reset, value)`. -/
def infoTextOf (lv : String × String) : String :=
  colorCode ++ lv.1 ++ ":" ++ resetCode ++ " " ++ lv.2

/-- One iteration of the render loop of `main` for logo row `i` (the `getD`
defaults are never reached for `i < logo.length`): rows 1 through 7 append
padding and the info text to the colorized logo line, every other row prints
the colorized logo line alone. -/
def rowLine (info : SystemInfo) (i : Nat) : String :=
  let li := (logo.get? i).getD ""
  if 1 ≤ i ∧ i ≤ 7 then
    let lv := ((labelsOf info).get? (i - 1)).getD ("", "")
    let currentLogoLength := li.utf8ByteSize
    let paddingNeeded :=
      if textStartPosition > currentLogoLength then
        textStartPosition - currentLogoLength
      else 1
    colorCode ++ li ++ resetCode ++ spaces paddingNeeded ++ infoTextOf lv
  else
    colorCode ++ li ++ resetCode

/-- The full sequence of lines `main` writes to standard output. -/
def renderLines (info : SystemInfo) : List String :=
  headerLine info :: (List.range logo.length).map (rowLine info)

/-- The whole run: collect a snapshot, then render it; `none` models a
panic aborting the process. -/
def mainOutput (env : Env) : Option (List String) :=
  (SystemInfo.new env).map renderLines

/-!
## Concrete inputs used by several theorems
-/

/-- A CPU info source whose model name is 31 copies of a two-byte character:
its trimmed value is 62 bytes long, and byte 27 falls inside a character. -/
def cpuinfoMultibyte : String :=
  "model name : " ++ (List.replicate 31 'é').asString

/-- An environment whose only unusual source is `cpuinfoMultibyte`. -/
def envMultibyte : Env :=
  { userVar := some "alice"
    shellVar := some "/bin/bash"
    hostnameFile := some "host\n"
    osReleaseFile := some "PRETTY_NAME=\"Debian GNU/Linux 12\"\n"
    kernelFile := some "6.1.0\n"
    uptimeFile := some "3665.0 1200.0"
    cpuinfoFile := some cpuinfoMultibyte
    meminfoFile := some "MemTotal:  16000000 kB\nMemAvailable: 8000000 kB" }

/-- The environment in which every source read and variable lookup fails. -/
def envAllNone : Env :=
  { userVar := none, shellVar := none, hostnameFile := none,
    osReleaseFile := none, kernelFile := none, uptimeFile := none,
    cpuinfoFile := none, meminfoFile := none }

/-- The snapshot collected in `envAllNone`. -/
def snapshotAllNone : SystemInfo :=
  { user := "unknown", hostname := "unknown", os := "linux x86_64",
    kernel := "unknown", uptime := "unknown", shell := "unknown",
    cpu := "unknown", cpu_cores := "unknown", cpu_speed := "unknown",
    memory := "unknown" }

/-- An environment in which `USER` is set to the empty string and every file
read fails. -/
def envEmptyUser : Env :=
  { userVar := some "", shellVar := none, hostnameFile := none,
    osReleaseFile := none, kernelFile := none, uptimeFile := none,
    cpuinfoFile := none, meminfoFile := none }

/-- A fixed snapshot with short field values, used to evaluate the
renderer. -/
def infoSample : SystemInfo :=
  { user := "u", hostname := "h", os := "Debian", kernel := "6.1.0",
    uptime := "1h 1m", shell := "/bin/bash", cpu := "X", cpu_cores := "4",
    cpu_speed := "2.60GHz", memory := "7.6GB / 15.3GB" }

/-!
## Helper lemmas
-/

theorem string_append_ne_empty (a b : String) (h : b ≠ "") : a ++ b ≠ "" := by
  intro hc
  apply h
  have hd := congrArg String.data hc
  simp only [String.data_append] at hd
  exact String.ext (List.append_eq_nil.mp hd).2

theorem toDigitsCore_ne_nil (b f : ℕ) :
    ∀ (n : ℕ) (ds : List Char), ds ≠ [] → Nat.toDigitsCore b f n ds ≠ [] := by
  induction f with
  | zero => intro n ds h; simpa [Nat.toDigitsCore] using h
  | succ f ih =>
    intro n ds h
    simp only [Nat.toDigitsCore]
    split
    · exact List.cons_ne_nil _ _
    · exact ih _ _ (List.cons_ne_nil _ _)

theorem nat_toString_ne_empty (n : ℕ) : toString n ≠ "" := by
  have h1 : Nat.toDigits 10 n ≠ [] := by
    by_cases hd : n / 10 = 0
    · simp [Nat.toDigits, Nat.toDigitsCore, hd]
    · simp only [Nat.toDigits, Nat.toDigitsCore, hd, if_false]
      exact toDigitsCore_ne_nil 10 n (n / 10) _ (List.cons_ne_nil _ _)
  intro hc
  exact h1 (congrArg String.data hc)

theorem get_uptime_ne_empty (src : Option String) : get_uptime src ≠ "" := by
  unfold get_uptime
  split
  · decide
  · split
    · decide
    · split
      · decide
      · exact string_append_ne_empty _ _ (by decide)

theorem get_cpu_cores_ne_empty (src : Option String) : get_cpu_cores src ≠ "" := by
  unfold get_cpu_cores
  split
  · exact nat_toString_ne_empty _
  · decide

theorem get_cpu_speed_ne_empty (src : Option String) : get_cpu_speed src ≠ "" := by
  unfold get_cpu_speed
  split
  · split
    · exact string_append_ne_empty _ _ (by decide)
    · decide
  · decide

theorem get_memory_ne_empty (src : Option String) (m : String)
    (h : get_memory src = some m) : m ≠ "" := by
  unfold get_memory at h
  split at h
  · simp only [Option.some.injEq] at h
    subst h; decide
  · split at h
    · split at h
      · simp only [Option.some.injEq] at h
        subst h
        exact string_append_ne_empty _ _ (by decide)
      · exact absurd h (by simp)
    · simp only [Option.some.injEq] at h
      subst h; decide

/-!
## Claim C1
-/

/-- Claim C1 (code bug): the claim says every field-collection failure
degrades to a fallback and the collect-and-render run always completes with
exit code 0.  The code violates this: when the trimmed model name is longer
than 30 bytes, `get_cpu` slices `&full_name[..27]`, which panics whenever
byte 27 is not a UTF-8 char boundary.  In `envMultibyte` (model name = 31
two-byte characters) the whole collect-and-render run aborts. -/
theorem collect_and_render_panics : mainOutput envMultibyte = none := by decide

/-!
## Claim C2
-/

/-- Claim C2, counterexample: with `USER` set to the empty string the `user`
field of the constructed snapshot is the empty string, so not every field is
non-empty. -/
theorem user_field_can_be_empty :
    (SystemInfo.new envEmptyUser).map SystemInfo.user = some "" := by decide

/-- Claim C2 (amended): every field of the snapshot built by
`SystemInfo::new` is populated — it equals the value its collector extracts
(the fallback `"unknown"` and the compiled platform string included) — and
the `uptime`, `cpu_cores`, `cpu_speed` and `memory` fields are never the
empty string; the remaining fields carry the extracted text verbatim, which
can be empty when the source itself yields an empty value. -/
theorem snapshot_fields_populated (env : Env) (s : SystemInfo)
    (h : SystemInfo.new env = some s) :
    s.user = get_user env.userVar ∧
    s.hostname = get_hostname env.hostnameFile ∧
    s.os = get_os_info env.osReleaseFile ∧
    s.kernel = get_kernel env.kernelFile ∧
    s.uptime = get_uptime env.uptimeFile ∧
    s.shell = get_shell env.shellVar ∧
    get_cpu env.cpuinfoFile = some s.cpu ∧
    s.cpu_cores = get_cpu_cores env.cpuinfoFile ∧
    s.cpu_speed = get_cpu_speed env.cpuinfoFile ∧
    get_memory env.meminfoFile = some s.memory ∧
    s.uptime ≠ "" ∧ s.cpu_cores ≠ "" ∧ s.cpu_speed ≠ "" ∧ s.memory ≠ "" := by
  unfold SystemInfo.new at h
  split at h
  · rename_i cpu memory hcpu hmem
    simp only [Option.some.injEq] at h
    subst h
    exact ⟨rfl, rfl, rfl, rfl, rfl, rfl, hcpu, rfl, rfl, hmem,
      get_uptime_ne_empty _, get_cpu_cores_ne_empty _,
      get_cpu_speed_ne_empty _, get_memory_ne_empty _ _ hmem⟩
  · exact absurd h (by simp)

/-- Witness for `snapshot_fields_populated` at the all-failing
environment. -/
theorem snapshot_fields_populated_witness :
    SystemInfo.new envAllNone = some snapshotAllNone ∧
    snapshotAllNone.uptime ≠ "" ∧ snapshotAllNone.memory ≠ "" := by
  refine ⟨by decide, ?_, ?_⟩
  · exact (snapshot_fields_populated envAllNone snapshotAllNone
      (by decide)).2.2.2.2.2.2.2.2.2.2.1
  · exact (snapshot_fields_populated envAllNone snapshotAllNone
      (by decide)).2.2.2.2.2.2.2.2.2.2.2.2.2

/-!
## Claim C6
-/

/-- Claim C6 (confirmed): whenever the uptime source is unreadable, contains
no whitespace-separated token, or its first token fails to parse as `f64`
(the composite `Option.bind` chain is `none`), `get_uptime` returns exactly
`"unknown"`. -/
theorem uptime_unknown_on_unparsable (src : Option String)
    (h : src.bind
      (fun c => (firstToken c).bind (fun tok => rustParseF64 tok.asString)) = none) :
    get_uptime src = "unknown" := by
  unfold get_uptime
  split
  · rfl
  · rename_i c
    simp only [Option.some_bind] at h
    split
    · rfl
    · rename_i tok htok
      rw [htok] at h
      simp only [Option.some_bind] at h
      split
      · rfl
      · rename_i v hv
        rw [hv] at h
        exact absurd h (by simp)

/-- Witness for `uptime_unknown_on_unparsable` on a non-numeric source. -/
theorem uptime_unknown_on_unparsable_witness :
    (some "up 3 days").bind
      (fun c => (firstToken c).bind (fun tok => rustParseF64 tok.asString)) = none ∧
    get_uptime (some "up 3 days") = "unknown" :=
  ⟨by decide, uptime_unknown_on_unparsable (some "up 3 days") (by decide)⟩

/-!
## Claim C7
-/

/-- Claim C7 (confirmed): on a readable CPU info source `get_cpu_cores`
renders in decimal the number of lines starting with `"processor"`; on an
unreadable source it returns the literal `"unknown"`, never the string
`"0"`. -/
theorem cpu_cores_counts_processor_lines (content : String) :
    get_cpu_cores (some content) =
      toString ((rustLines content).filter (fun l => startsWithL l "processor")).length ∧
    get_cpu_cores none = "unknown" ∧ get_cpu_cores none ≠ "0" := by
  refine ⟨?_, rfl, by decide⟩
  have h : get_cpu_cores (some content) =
      toString ((rustLines content).countP (fun l => startsWithL l "processor")) := rfl
  rw [h, List.countP_eq_length_filter]

/-!
## Claim C8
-/

/-- Claim C8 (confirmed): the `cpu`, `cpu_cores` and `cpu_speed` fields of a
collected snapshot are each a function of the CPU info source alone — so no
field's failure or success can affect the others — and when that source is
absent all three are `"unknown"`. -/
theorem cpu_fields_independent (env : Env) (s : SystemInfo)
    (h : SystemInfo.new env = some s) :
    get_cpu env.cpuinfoFile = some s.cpu ∧
    s.cpu_cores = get_cpu_cores env.cpuinfoFile ∧
    s.cpu_speed = get_cpu_speed env.cpuinfoFile ∧
    (env.cpuinfoFile = none →
      s.cpu = "unknown" ∧ s.cpu_cores = "unknown" ∧ s.cpu_speed = "unknown") := by
  unfold SystemInfo.new at h
  split at h
  · rename_i cpu memory hcpu hmem
    simp only [Option.some.injEq] at h
    subst h
    refine ⟨hcpu, rfl, rfl, fun hnone => ?_⟩
    rw [hnone] at hcpu
    simp only [get_cpu, Option.some.injEq] at hcpu
    exact ⟨hcpu.symm, by rw [hnone]; rfl, by rw [hnone]; rfl⟩
  · exact absurd h (by simp)

/-- Witness for `cpu_fields_independent` at the all-failing environment. -/
theorem cpu_fields_independent_witness :
    SystemInfo.new envAllNone = some snapshotAllNone ∧
    (get_cpu envAllNone.cpuinfoFile = some snapshotAllNone.cpu ∧
     snapshotAllNone.cpu_cores = get_cpu_cores envAllNone.cpuinfoFile ∧
     snapshotAllNone.cpu_speed = get_cpu_speed envAllNone.cpuinfoFile ∧
     (envAllNone.cpuinfoFile = none →
       snapshotAllNone.cpu = "unknown" ∧ snapshotAllNone.cpu_cores = "unknown" ∧
       snapshotAllNone.cpu_speed = "unknown")) :=
  ⟨by decide, cpu_fields_independent envAllNone snapshotAllNone (by decide)⟩

/-!
## Claim C10
-/

/-- Modelled from the spec: "right-pads it to a fixed total column width" —
padding spaces appended on the right of the text, up to the width. -/
def specPadOnRight (w : Nat) (s : String) : String :=
  if s.length < w then s ++ spaces (w - s.length) else s

/-- Claim C10, counterexample: the header is printed with `{:>width$}`,
which right-ALIGNS — the padding spaces go to the LEFT of the colorized
`user@host` text, not to its right as the claim's "right-pads" states. -/
theorem header_not_right_padded :
    headerLine infoSample = spaces 48 ++ userHost infoSample ∧
    headerLine infoSample ≠ specPadOnRight totalWidth (userHost infoSample) := by
  decide

/-- Claim C10 (amended): before the two-column block the renderer composes
the colorized `user@host` header from the `user` and `hostname` fields and
LEFT-pads it (right-alignment) to the fixed total column width of 60
characters, for every snapshot. -/
theorem header_left_padded (info : SystemInfo) :
    headerLine info = spaces (totalWidth - (userHost info).length) ++ userHost info := by
  unfold headerLine rustPadRightAlign
  split
  · rfl
  · rename_i hlen
    unfold totalWidth textStartPosition at *
    have h0 : 30 + 30 - (userHost info).length = 0 := by omega
    rw [h0]
    exact (String.ext (by simp [String.data_append, spaces, List.asString])).symm

/-!
## Claim C3
-/

/-- A memory source where `MemAvailable` exceeds `MemTotal`. -/
def meminfoUnderflow : String := "MemTotal: 1 kB\nMemAvailable: 2 kB"

/-- The memory source of the spec's worked example. -/
def meminfoSample : String := "MemTotal:  16000000 kB\nMemAvailable: 8000000 kB"

/-- Claim C3, counterexample: a readable source carrying both keys on which
`get_memory` does not return the claimed `"{used:.1}GB / {total:.1}GB"`
string: `MemAvailable > MemTotal` makes the `u64` subtraction
`total - available` overflow, and the code panics. -/
theorem memory_underflow_panics :
    memLookup (memEntriesOf meminfoUnderflow) "MemTotal" = some 1 ∧
    memLookup (memEntriesOf meminfoUnderflow) "MemAvailable" = some 2 ∧
    get_memory (some meminfoUnderflow) = none := by decide

/-- Claim C3 (amended): when the memory source is readable, carries both
`MemTotal` and `MemAvailable`, and `MemAvailable ≤ MemTotal`, `get_memory`
returns `"{used:.1}GB / {total:.1}GB"` with `used = MemTotal − MemAvailable`
and both values converted to gigabytes by division by 1024² (after the
`u64`-to-`f64` conversion). -/
theorem memory_formats_used_total (content : String) (total available : Nat)
    (ht : memLookup (memEntriesOf content) "MemTotal" = some total)
    (ha : memLookup (memEntriesOf content) "MemAvailable" = some available)
    (hle : available ≤ total) :
    get_memory (some content) =
      some (fmtFixed 1 (memGB (total - available)) ++ "GB / " ++
        fmtFixed 1 (memGB total) ++ "GB") := by
  have h : get_memory (some content) =
      match memLookup (memEntriesOf content) "MemTotal",
          memLookup (memEntriesOf content) "MemAvailable" with
      | some t, some a =>
        if a ≤ t then
          some (fmtFixed 1 (memGB (t - a)) ++ "GB / " ++ fmtFixed 1 (memGB t) ++ "GB")
        else none
      | _, _ => some "unknown" := rfl
  rw [h, ht, ha]
  simp only [if_pos hle]

/-- Witness for `memory_formats_used_total` on the spec's worked example:
the result is exactly `"7.6GB / 15.3GB"`. -/
theorem memory_formats_used_total_witness :
    memLookup (memEntriesOf meminfoSample) "MemTotal" = some 16000000 ∧
    memLookup (memEntriesOf meminfoSample) "MemAvailable" = some 8000000 ∧
    8000000 ≤ 16000000 ∧
    get_memory (some meminfoSample) = some "7.6GB / 15.3GB" :=
  ⟨by decide, by decide, by decide,
    (memory_formats_used_total meminfoSample 16000000 8000000 (by decide) (by decide)
      (by decide)).trans (by decide)⟩

/-!
## Claim C4
-/

/-- Modelled from the claim's words, for comparison with the code: the model
name read as "the text after the first colon, trimmed" of the first line
starting with `model name`. -/
def specModelNameAfterFirstColon (content : String) : Option (List Char) :=
  (findFirst (rustLines content)).bind afterFirst
where
  findFirst : List (List Char) → Option (List Char)
    | [] => none
    | l :: ls => if startsWithL l "model name" then some l else findFirst ls
  afterFirst (l : List Char) : Option (List Char) :=
    let pre := l.takeWhile (· ≠ ':')
    if pre.length = l.length then none
    else some (rustTrimL (l.drop (pre.length + 1)))

/-- A CPU info source whose model name itself contains a colon. -/
def cpuinfoColonName : String :=
  "model name: short:aaaaaaaaaaaaaaaaaaaaaaaaaaaaaaa"

/-- Claim C4, counterexample: reading the name as the claim says — the text
after the FIRST colon, trimmed — gives a 37-character name, so the claim
requires the first 27 characters plus `"..."`; but the code takes
`split(':').nth(1)`, the text between the first and second colons, and
returns `"short"` untruncated. -/
theorem cpu_colon_counterexample :
    specModelNameAfterFirstColon cpuinfoColonName =
      some "short:aaaaaaaaaaaaaaaaaaaaaaaaaaaaaaa".toList ∧
    (specModelNameAfterFirstColon cpuinfoColonName).map List.length = some 37 ∧
    (specModelNameAfterFirstColon cpuinfoColonName).map
        (fun n => (n.take 27).asString ++ "...") =
      some "short:aaaaaaaaaaaaaaaaaaaaa..." ∧
    get_cpu (some cpuinfoColonName) = some "short" ∧
    ("short" : String) ≠ "short:aaaaaaaaaaaaaaaaaaaaa..." := by decide

/-- Claim C4 (amended): when the extracted model name — the text between the
first and second colons of the first usable `model name` line, trimmed — is
longer than 30 bytes and its 27-byte prefix ends on a char boundary,
`get_cpu` returns exactly those first 27 bytes followed by `"..."`. -/
theorem cpu_truncates_long_names (content : String) (name pre : List Char)
    (h1 : findLabelledValue "model name" (rustLines content) = some name)
    (h2 : 30 < utf8Len (rustTrimL name))
    (h3 : takeBytes (rustTrimL name) 27 = some pre) :
    get_cpu (some content) = some (pre.asString ++ "...") := by
  have h : get_cpu (some content) =
      match findLabelledValue "model name" (rustLines content) with
      | some n => processCpuName n
      | none => some "unknown" := rfl
  rw [h, h1]
  simp only [processCpuName]
  rw [if_pos h2, h3]
  rfl

/-- The trimmed 40-byte model name of `cpuinfoLongName`. -/
def cpuNameLong : List Char := " Intel(R) Core(TM) i7-9750H CPU @ 2.60GHz".toList

/-- A CPU info source with a model name longer than 30 bytes. -/
def cpuinfoLongName : String :=
  "model name\t: Intel(R) Core(TM) i7-9750H CPU @ 2.60GHz"

/-- Witness for `cpu_truncates_long_names`. -/
theorem cpu_truncates_long_names_witness :
    findLabelledValue "model name" (rustLines cpuinfoLongName) = some cpuNameLong ∧
    30 < utf8Len (rustTrimL cpuNameLong) ∧
    takeBytes (rustTrimL cpuNameLong) 27 = some "Intel(R) Core(TM) i7-9750H ".toList ∧
    get_cpu (some cpuinfoLongName) = some "Intel(R) Core(TM) i7-9750H ..." :=
  ⟨by decide, by decide, by decide,
    (cpu_truncates_long_names cpuinfoLongName cpuNameLong
      "Intel(R) Core(TM) i7-9750H ".toList (by decide) (by decide)
      (by decide)).trans (by decide)⟩

/-!
## Claim C5
-/

/-- Modelled from the claim's words, for comparison with the code:
`"{hours}h {minutes}m"` with hours = `⌊s / 3600⌋` and
minutes = `⌊(s mod 3600) / 60⌋`. -/
def specUptimeFormat (s : ℚ) : String :=
  toString ⌊s / 3600⌋ ++ "h " ++
    toString ⌊(s - 3600 * (⌊s / 3600⌋ : ℚ)) / 60⌋ ++ "m"

/-- Claim C5, counterexample: `"-3665.0"` parses as a floating-point number
of seconds, but the claimed floor formulas give `"-2h 58m"` while the code's
saturating `as u32` casts clamp the negative values to 0 and print
`"0h 0m"`. -/
theorem uptime_negative_counterexample :
    firstToken "-3665.0 1200.0" = some "-3665.0".toList ∧
    rustParseF64 "-3665.0" = some (.finite (-3665)) ∧
    get_uptime (some "-3665.0 1200.0") = "0h 0m" ∧
    specUptimeFormat (-3665) = "-2h 58m" ∧
    ("0h 0m" : String) ≠ "-2h 58m" := by decide

theorem int_toString_of_nonneg (z : ℤ) (h : 0 ≤ z) : toString z = toString z.toNat := by
  cases z with
  | ofNat n => rfl
  | negSucc n => exact absurd h (by exact (Int.negSucc_lt_zero n).not_le)

theorem f64AsU32_finite_nonneg (q : ℚ) (h0 : 0 ≤ q) (hlt : q < 2 ^ 32) :
    f64AsU32 (.finite q) = ⌊q⌋.toNat := by
  have ht : truncQ q = ⌊q⌋ := by unfold truncQ; rw [if_neg (not_lt.mpr h0)]
  have hf0 : 0 ≤ ⌊q⌋ := Int.floor_nonneg.mpr h0
  have hflt : ⌊q⌋ < 2 ^ 32 := Int.floor_lt.mpr (by exact_mod_cast hlt)
  show (if truncQ q < 0 then 0
    else if truncQ q > 2 ^ 32 - 1 then 2 ^ 32 - 1 else (truncQ q).toNat) = ⌊q⌋.toNat
  rw [ht, if_neg (not_lt.mpr hf0), if_neg (by omega)]

/-- Claim C5 (amended): when the first token of the uptime source parses as a
finite nonnegative number of seconds `q` below `3600 · 2^32` (so that neither
saturating cast clamps), `get_uptime` prints exactly the claimed
`"{⌊q/3600⌋}h {⌊(q mod 3600)/60⌋}m"`. -/
theorem uptime_formats_nonneg (content : String) (tok : List Char) (q : ℚ)
    (h1 : firstToken content = some tok)
    (h2 : rustParseF64 tok.asString = some (.finite q))
    (h3 : 0 ≤ q) (h4 : q < 3600 * 2 ^ 32) :
    get_uptime (some content) = specUptimeFormat q := by
  have hu : get_uptime (some content) =
      match firstToken content with
      | none => "unknown"
      | some tok =>
        match rustParseF64 tok.asString with
        | none => "unknown"
        | some v =>
          toString (f64AsU32 (f64Div v 3600)) ++ "h " ++
            toString (f64AsU32 (f64Div (f64Rem v 3600) 60)) ++ "m" := rfl
  rw [hu, h1]
  simp only []
  rw [h2]
  simp only [f64Div, f64Rem]
  have hq0 : 0 ≤ q / 3600 := div_nonneg h3 (by norm_num)
  have hqlt : q / 3600 < 2 ^ 32 := by
    rw [div_lt_iff₀ (by norm_num : (0:ℚ) < 3600)]
    calc q < 3600 * 2 ^ 32 := h4
    _ = 2 ^ 32 * 3600 := by ring
  have htr : truncQ (q / 3600) = ⌊q / 3600⌋ := by
    unfold truncQ; rw [if_neg (not_lt.mpr hq0)]
  rw [f64AsU32_finite_nonneg _ hq0 hqlt, htr]
  have hfl : (⌊q / 3600⌋ : ℚ) ≤ q / 3600 := Int.floor_le _
  have hfu : q / 3600 < (⌊q / 3600⌋ : ℚ) + 1 := Int.lt_floor_add_one _
  have h36 : 3600 * (q / 3600) = q := by field_simp
  have hr0 : 0 ≤ q - 3600 * (⌊q / 3600⌋ : ℚ) := by nlinarith
  have hrlt : q - 3600 * (⌊q / 3600⌋ : ℚ) < 3600 := by nlinarith
  have hm0 : 0 ≤ (q - 3600 * (⌊q / 3600⌋ : ℚ)) / 60 := div_nonneg hr0 (by norm_num)
  have hmlt : (q - 3600 * (⌊q / 3600⌋ : ℚ)) / 60 < 2 ^ 32 := by
    rw [div_lt_iff₀ (by norm_num : (0:ℚ) < 60)]
    nlinarith
  rw [f64AsU32_finite_nonneg _ hm0 hmlt]
  unfold specUptimeFormat
  rw [int_toString_of_nonneg _ (Int.floor_nonneg.mpr hq0),
    int_toString_of_nonneg _ (Int.floor_nonneg.mpr hm0)]

/-- Witness for `uptime_formats_nonneg` on the spec's worked example:
`"3665.0 1200.0"` gives exactly `"1h 1m"`. -/
theorem uptime_formats_nonneg_witness :
    firstToken "3665.0 1200.0" = some "3665.0".toList ∧
    rustParseF64 ("3665.0".toList).asString = some (.finite 3665) ∧
    (0:ℚ) ≤ 3665 ∧ (3665:ℚ) < 3600 * 2 ^ 32 ∧
    get_uptime (some "3665.0 1200.0") = "1h 1m" :=
  ⟨by decide, by decide, by decide, by decide,
    (uptime_formats_nonneg "3665.0 1200.0" "3665.0".toList 3665 (by decide) (by decide)
      (by decide) (by decide)).trans (by decide)⟩

/-!
## Claim C9
-/

/-- Claim C9 (confirmed): for every snapshot, each labeled row (logo rows 1
through 7) is the colorized literal logo line, then
`max 1 (column width − logo line length)` spaces, then the info text with
label and colon colorized; every other row (row 0 and rows 8 through 11) is
the colorized literal logo line alone — so every row retains the original
literal logo line text. -/
theorem render_rows_layout (info : SystemInfo) (i : Nat) (h : i < logo.length) :
    (1 ≤ i ∧ i ≤ 7 →
      ∃ lv, (labelsOf info).get? (i - 1) = some lv ∧
        rowLine info i =
          colorCode ++ (logo.get? i).getD "" ++ resetCode ++
            spaces (max 1 (textStartPosition - ((logo.get? i).getD "").utf8ByteSize)) ++
            (colorCode ++ lv.1 ++ ":" ++ resetCode ++ " " ++ lv.2)) ∧
    ((i = 0 ∨ 8 ≤ i) → rowLine info i = colorCode ++ (logo.get? i).getD "" ++ resetCode) ∧
    (∃ a b, rowLine info i = a ++ (logo.get? i).getD "" ++ b) := by
  have h12 : i < 12 := by simpa [logo] using h
  have hret5 : ∀ c li r sp it : String, ∃ a b, c ++ li ++ r ++ sp ++ it = a ++ li ++ b :=
    fun c li r sp it => ⟨c, r ++ sp ++ it, by simp [String.append_assoc]⟩
  interval_cases i
  · exact ⟨fun hi => by omega, fun _ => rfl, ⟨colorCode, resetCode, rfl⟩⟩
  · exact ⟨fun _ => ⟨("OS", info.os), rfl, rfl⟩, fun hi => by omega,
      hret5 colorCode ((logo.get? 1).getD "") resetCode _ (infoTextOf ("OS", info.os))⟩
  · exact ⟨fun _ => ⟨("Host", info.hostname), rfl, rfl⟩, fun hi => by omega,
      hret5 colorCode ((logo.get? 2).getD "") resetCode _ (infoTextOf ("Host", info.hostname))⟩
  · exact ⟨fun _ => ⟨("Kernel", info.kernel), rfl, rfl⟩, fun hi => by omega,
      hret5 colorCode ((logo.get? 3).getD "") resetCode _ (infoTextOf ("Kernel", info.kernel))⟩
  · exact ⟨fun _ => ⟨("Uptime", info.uptime), rfl, rfl⟩, fun hi => by omega,
      hret5 colorCode ((logo.get? 4).getD "") resetCode _ (infoTextOf ("Uptime", info.uptime))⟩
  · exact ⟨fun _ => ⟨("Shell", info.shell), rfl, rfl⟩, fun hi => by omega,
      hret5 colorCode ((logo.get? 5).getD "") resetCode _ (infoTextOf ("Shell", info.shell))⟩
  · exact ⟨fun _ =>
      ⟨("CPU", info.cpu ++ " (" ++ info.cpu_cores ++ ") @ " ++ info.cpu_speed),
        rfl, rfl⟩, fun hi => by omega,
      hret5 colorCode ((logo.get? 6).getD "") resetCode _
        (infoTextOf ("CPU", info.cpu ++ " (" ++ info.cpu_cores ++ ") @ " ++ info.cpu_speed))⟩
  · exact ⟨fun _ => ⟨("Memory", info.memory), rfl, rfl⟩, fun hi => by omega,
      hret5 colorCode ((logo.get? 7).getD "") resetCode _ (infoTextOf ("Memory", info.memory))⟩
  · exact ⟨fun hi => by omega, fun _ => rfl, ⟨colorCode, resetCode, rfl⟩⟩
  · exact ⟨fun hi => by omega, fun _ => rfl, ⟨colorCode, resetCode, rfl⟩⟩
  · exact ⟨fun hi => by omega, fun _ => rfl, ⟨colorCode, resetCode, rfl⟩⟩
  · exact ⟨fun hi => by omega, fun _ => rfl, ⟨colorCode, resetCode, rfl⟩⟩

/-- Witness for `render_rows_layout` at logo row 2 of a sample snapshot. -/
theorem render_rows_layout_witness :
    2 < logo.length ∧
    ∃ lv, (labelsOf infoSample).get? (2 - 1) = some lv ∧
      rowLine infoSample 2 =
        colorCode ++ (logo.get? 2).getD "" ++ resetCode ++
          spaces (max 1 (textStartPosition - ((logo.get? 2).getD "").utf8ByteSize)) ++
          (colorCode ++ lv.1 ++ ":" ++ resetCode ++ " " ++ lv.2) :=
  ⟨by decide, (render_rows_layout infoSample 2 (by decide)).1 (by decide)⟩

end Antfetch
